import Mathlib

/-!
Shallow embedding of `src/main-application.py` (a pandas sales/pricing
dashboard) and proofs about it.

Modelling conventions:
* a dataframe is a `List` of row structures, in row order;
* currency / price values are exact rationals (`ℚ`);
* the NaN produced by `Series.mean()` on an empty column is `Option.none`;
* a raising pandas operation (`Series.idxmax` on an empty series) is
  `Except.error`;
* `prepare_data` mutates its first argument in place
  (`sales_data['OrderDate'] = pd.to_datetime(...)`, line 28), so its
  embedding returns both the narrowed result tables and the post-call
  state of the two argument tables.
-/

namespace SalesDash

/-- A calendar date, as produced by `pd.to_datetime` (time-of-day is never
used by the program). -/
structure Date where
  year : Nat
  month : Nat
  day : Nat
deriving DecidableEq

/-- A cell of the `OrderDate` column: either a still-unparsed CSV string or
a parsed datetime. -/
inductive DateVal where
  | raw (s : String)
  | parsed (d : Date)
deriving DecidableEq

/-- A row of the order table as it flows through `prepare_data`.  The five
named fields are the columns the projection at line 31 keeps; `extras`
stands for all other CSV columns (name/value pairs), which the projection
drops. -/
structure SalesRow where
  salesOrderID : Nat
  orderDate : DateVal
  totalDue : ℚ
  status : String
  customerID : Nat
  extras : List (String × String)
deriving DecidableEq

/-- A row of the product table as it flows through `prepare_data`; the four
named fields are the columns kept by line 32, `extras` the dropped ones. -/
structure ProductRow where
  productID : Nat
  name : String
  listPrice : ℚ
  productLine : String
  extras : List (String × String)
deriving DecidableEq

/-- Split a character list at every dash, used to read `"YYYY-MM-DD"`. -/
def splitOnDash : List Char → List (List Char)
  | [] => [[]]
  | c :: rest =>
    match splitOnDash rest with
    | [] => [[c]]
    | g :: gs => if c = '-' then [] :: g :: gs else (c :: g) :: gs

/-- Read a non-empty all-digit character list as a natural number. -/
def digitsToNat (l : List Char) : Option Nat :=
  if l ≠ [] ∧ l.all Char.isDigit then
    some (l.foldl (fun acc c => acc * 10 + (c.toNat - '0'.toNat)) 0)
  else none

/-- Parse an ISO `"YYYY-MM-DD"` date string.  This models `pd.to_datetime`
applied to one cell of the `OrderDate` CSV column; `none` models the parse
error pandas raises on an unparseable date. -/
def parseDateStr (s : String) : Option Date :=
  match splitOnDash s.data with
  | [y, m, d] =>
    match digitsToNat y, digitsToNat m, digitsToNat d with
    | some yn, some mn, some dn =>
      if 1 ≤ mn ∧ mn ≤ 12 ∧ 1 ≤ dn ∧ dn ≤ 31 then some ⟨yn, mn, dn⟩ else none
    | _, _, _ => none
  | _ => none

/-- Embedding of `pd.to_datetime` on one cell: a raw string is parsed, an already-parsed
datetime is returned unchanged. -/
def toDatetimeVal : DateVal → Option DateVal
  | .raw s => (parseDateStr s).map .parsed
  | .parsed d => some (.parsed d)

/-- Embedding of `pd.to_datetime(sales_data['OrderDate'])` (line 28): parse the whole date column;
the first unparseable cell fails the whole operation (pandas raises). -/
def parseTable : List SalesRow → Option (List SalesRow)
  | [] => some []
  | r :: rs =>
    match toDatetimeVal r.orderDate with
    | none => none
    | some d => (parseTable rs).map (fun rest => { r with orderDate := d } :: rest)

/-- Embedding of `prepare_data` (lines 25-34).  The first component is the
pair of narrowed tables the function returns; the second component is the
post-call state of the two *argument* tables: line 28 writes the parsed
date column back into the caller's order table (all other columns intact),
while the product argument is never written to. -/
def prepareData (sales : List SalesRow) (products : List ProductRow) :
    Option ((List SalesRow × List ProductRow) × (List SalesRow × List ProductRow)) :=
  match parseTable sales with
  | none => none
  | some parsedSales =>
    some ((parsedSales.map (fun r => { r with extras := [] }),
           products.map (fun r => { r with extras := [] })),
          (parsedSales, products))

/-- A table already in the prepared order schema: date column parsed and no
columns beyond the five kept by the projection. -/
def isPreparedSales (rows : List SalesRow) : Prop :=
  ∀ r ∈ rows, (∃ d, r.orderDate = .parsed d) ∧ r.extras = []

/-- A table already in the prepared product schema: no columns beyond the
four kept by the projection. -/
def isPreparedProducts (rows : List ProductRow) : Prop :=
  ∀ r ∈ rows, r.extras = []

/-- A row of the prepared order table, as consumed by `create_dashboard`
and `generate_insights`. -/
structure Order where
  salesOrderID : Nat
  orderDate : Date
  totalDue : ℚ
  status : String
  customerID : Nat
deriving DecidableEq

/-- A row of the prepared product table, as consumed by `create_dashboard`
and `generate_insights`. -/
structure Product where
  productID : Nat
  name : String
  listPrice : ℚ
  productLine : String
deriving DecidableEq

/-! Digit rendering.  `natDigits n` is the decimal digit string of `n`;
the fuel argument (always sufficient at `fuel = n`) keeps the recursion
structural so that concrete values reduce inside the kernel. -/

/-- Decimal digits of `n`, most significant first, with explicit fuel. -/
def natDigitsAux : Nat → Nat → List Char
  | 0, n => [Nat.digitChar (n % 10)]
  | fuel + 1, n =>
    if n < 10 then [Nat.digitChar n]
    else natDigitsAux fuel (n / 10) ++ [Nat.digitChar (n % 10)]

/-- Decimal digits of `n`, most significant first. -/
def natDigits (n : Nat) : List Char :=
  natDigitsAux n n

/-- Decimal rendering of a natural number. -/
def natStr (n : Nat) : String :=
  String.mk (natDigits n)

/-- Zero-pad to two digits, as `strftime` field `%m` does. -/
def pad2 (n : Nat) : String :=
  if n < 10 then "0" ++ natStr n else natStr n

/-- Zero-pad to four digits, as `strftime` field `%Y` does. -/
def pad4 (n : Nat) : String :=
  if n < 10 then "000" ++ natStr n
  else if n < 100 then "00" ++ natStr n
  else if n < 1000 then "0" ++ natStr n
  else natStr n

/-- Rendering `strftime('%Y-%m')` of one order date (line 48). -/
def ymKey (d : Date) : String :=
  pad4 d.year ++ "-" ++ pad2 d.month

/-- One step of the month group-by: add `v` into the group of key `k`,
creating the group at the end on first sight of `k`.  Each group carries
its summed `TotalDue` and its `SalesOrderID` count. -/
def upsertMonthly : List (String × ℚ × Nat) → String → ℚ → List (String × ℚ × Nat)
  | [], k, v => [(k, v, 1)]
  | (k', s, c) :: rest, k, v =>
    if k' = k then (k', s + v, c + 1) :: rest
    else (k', s, c) :: upsertMonthly rest k v

/-- Group the order rows by their `"YYYY-MM"` key, in first-occurrence
order, summing `TotalDue` and counting rows per group. -/
def monthlyTally (rows : List Order) : List (String × ℚ × Nat) :=
  rows.foldl (fun acc r => upsertMonthly acc (ymKey r.orderDate) r.totalDue) []

/-- Group ordering of the month aggregate: ascending group key, as the
pandas `groupby` default `sort=True` produces. -/
def keyLE (a b : String × ℚ × Nat) : Prop :=
  a.1 ≤ b.1

instance : DecidableRel keyLE := fun a b => inferInstanceAs (Decidable (a.1 ≤ b.1))

/-- Embedding of the monthly aggregate of lines 48-50:
`sales_data.groupby(OrderDate.dt.strftime('%Y-%m')).agg(TotalDue sum, SalesOrderID count)`,
one row per month present, sorted ascending by the month key. -/
def monthlySales (rows : List Order) : List (String × ℚ × Nat) :=
  List.insertionSort keyLE (monthlyTally rows)

/-- One step of the status count: bump the count of label `k`, creating it
at the end on first sight. -/
def upsertCount : List (String × Nat) → String → List (String × Nat)
  | [], k => [(k, 1)]
  | (k', c) :: rest, k =>
    if k' = k then (k', c + 1) :: rest
    else (k', c) :: upsertCount rest k

/-- Count the order rows per distinct status label, labels in
first-occurrence order. -/
def statusTally (rows : List Order) : List (String × Nat) :=
  rows.foldl (fun acc r => upsertCount acc r.status) []

/-- Ordering of `value_counts`: descending count. -/
def countGE (a b : String × Nat) : Prop :=
  b.2 ≤ a.2

instance : DecidableRel countGE := fun a b => inferInstanceAs (Decidable (b.2 ≤ a.2))

/-- Embedding of `sales_data['Status'].value_counts()` (line 65): one entry
per distinct status label with its row count, sorted by descending count
(ties keep first-occurrence order). -/
def statusDist (rows : List Order) : List (String × Nat) :=
  List.insertionSort countGE (statusTally rows)

/-- Ordering used by `nlargest(10, 'ListPrice')` on index/row pairs:
larger list price first, ties broken by smaller original row index
(`keep='first'`, a stable descending sort). -/
def priceIdxLE (a b : Nat × Product) : Prop :=
  b.2.listPrice < a.2.listPrice ∨ (a.2.listPrice = b.2.listPrice ∧ a.1 ≤ b.1)

instance : DecidableRel priceIdxLE := fun _ _ =>
  inferInstanceAs (Decidable (_ ∨ _))

instance : IsTotal (Nat × Product) priceIdxLE := by
  constructor
  intro a b
  rcases lt_trichotomy a.2.listPrice b.2.listPrice with h | h | h
  · exact Or.inr (Or.inl h)
  · rcases Nat.le_total a.1 b.1 with hn | hn
    · exact Or.inl (Or.inr ⟨h, hn⟩)
    · exact Or.inr (Or.inr ⟨h.symm, hn⟩)
  · exact Or.inl (Or.inl h)

instance : IsTrans (Nat × Product) priceIdxLE := by
  constructor
  intro a b c hab hbc
  rcases hab with h1 | ⟨h1, h1n⟩
  · rcases hbc with h2 | ⟨h2, _⟩
    · exact Or.inl (h2.trans h1)
    · exact Or.inl (h2 ▸ h1)
  · rcases hbc with h2 | ⟨h2, h2n⟩
    · exact Or.inl (h1 ▸ h2)
    · exact Or.inr ⟨h1.trans h2, h1n.trans h2n⟩

/-- Embedding of `product_data.nlargest(n, 'ListPrice')` (line 80) with the
original row index kept alongside each row. -/
def nlargestIdx (n : Nat) (products : List Product) : List (Nat × Product) :=
  (List.insertionSort priceIdxLE products.enum).take n

/-- Embedding of `product_data.nlargest(n, 'ListPrice')` (line 80): the `n`
rows of largest list price, descending, ties in original row order. -/
def nlargest (n : Nat) (products : List Product) : List Product :=
  (nlargestIdx n products).map Prod.snd

/-- The top-products view of the dashboard's bar panel: `nlargest` with
`n = 10`. -/
def topProducts (products : List Product) : List Product :=
  nlargest 10 products

/-- Embedding of `Series.idxmax` (line 102): index of the first occurrence of the
maximum value; raises on an empty series. -/
def idxmax (l : List ℚ) : Except String Nat :=
  match l with
  | [] => .error "attempt to get argmax of an empty sequence"
  | x :: xs => .ok ((x :: xs).findIdx (fun y => decide (xs.foldl max x ≤ y)))

/-- Embedding of `Series.mean()`: arithmetic mean, `none` (pandas `NaN`) on an empty
column. -/
def meanQ (l : List ℚ) : Option ℚ :=
  match l with
  | [] => none
  | _ :: _ => some (l.sum / l.length)

/-- The five scalars of the `insights` dict (lines 97-103). -/
structure Insights where
  totalSales : ℚ
  totalOrders : Nat
  avgOrderValue : Option ℚ
  avgProductPrice : Option ℚ
  mostExpensive : String
deriving DecidableEq

/-- Embedding of the scalar computations of `generate_insights`
(lines 97-103).  `Except.error` models the `ValueError` that
`idxmax` raises when the product table is empty. -/
def generateInsights (sales : List Order) (products : List Product) :
    Except String Insights :=
  match idxmax (products.map (·.listPrice)) with
  | .error e => .error e
  | .ok i =>
    .ok { totalSales := (sales.map (·.totalDue)).sum
          totalOrders := sales.length
          avgOrderValue := meanQ (sales.map (·.totalDue))
          avgProductPrice := meanQ (products.map (·.listPrice))
          mostExpensive := (products.map (·.name)).getD i "" }

/-! Text formatting of the insights file (lines 106-112).  Python's
format spec `,.2f` rounds to two decimals (half-to-even), groups the
integer part in threes with commas, and renders a NaN as `"nan"`;
`:,` on an int groups with commas. -/

/-- Insert a comma after every third character; applied to the *reversed*
digit list, this realizes grouping in threes from the right. -/
def insertCommasRev : List Char → List Char
  | a :: b :: c :: d :: rest => a :: b :: c :: ',' :: insertCommasRev (d :: rest)
  | l => l

/-- Group a digit list in threes from the right with commas. -/
def withCommas (ds : List Char) : List Char :=
  (insertCommasRev ds.reverse).reverse

/-- Round a non-negative rational to a whole number of cents, half to
even, as Python's `round`/format rounding does. -/
def roundCents (q : ℚ) : Nat :=
  let n := q * 100
  let f := ⌊n⌋
  if n - f < 1 / 2 then f.toNat
  else if 1 / 2 < n - f then (f + 1).toNat
  else if f % 2 = 0 then f.toNat else (f + 1).toNat

/-- Python money formatting, format spec comma-dot-2-f: sign,
comma-grouped integer part, dot, exactly two decimal digits. -/
def formatMoney (q : ℚ) : String :=
  let sgn := if q < 0 then "-" else ""
  let n := roundCents |q|
  sgn ++ String.mk (withCommas (natDigits (n / 100))) ++ "." ++
    String.mk [Nat.digitChar (n / 10 % 10), Nat.digitChar (n % 10)]

/-- Python int formatting with the comma format spec on a non-negative
int: comma-grouped digits. -/
def formatInt (n : Nat) : String :=
  String.mk (withCommas (natDigits n))

/-- Formatting of a mean under `,.2f`: a NaN (empty-column mean) renders
as `"nan"`. -/
def formatMean : Option ℚ → String
  | none => "nan"
  | some q => formatMoney q

/-- The full text written to `insights.txt` (lines 106-112). -/
def insightsText (ins : Insights) : String :=
  "Key Business Insights:\n\n" ++
  "Total Sales: $" ++ formatMoney ins.totalSales ++ "\n" ++
  "Total Orders: " ++ formatInt ins.totalOrders ++ "\n" ++
  "Average Order Value: $" ++ formatMean ins.avgOrderValue ++ "\n" ++
  "Average Product Price: $" ++ formatMean ins.avgProductPrice ++ "\n" ++
  "Most Expensive Product: " ++ ins.mostExpensive ++ "\n"

/-- Checker for a reversed comma-grouped digit string: digits in groups of
three from the right (front of the reversed list), groups separated by
single commas, at least one digit. -/
def grpRev : List Char → Bool
  | [] => false
  | [a] => a.isDigit
  | [a, b] => a.isDigit && b.isDigit
  | [a, b, c] => a.isDigit && b.isDigit && c.isDigit
  | a :: b :: c :: x :: rest =>
    a.isDigit && b.isDigit && c.isDigit && x == ',' && grpRev rest

/-- Checker for the claimed currency shape: a comma-grouped digit string,
a dot, then exactly two decimal digits. -/
def isMoneyChars (l : List Char) : Bool :=
  match l.reverse with
  | d2 :: d1 :: dot :: rest => d1.isDigit && d2.isDigit && dot == '.' && grpRev rest
  | _ => false

/-- Checker for the claimed count shape: a comma-grouped digit string with
no decimals. -/
def isCountChars (l : List Char) : Bool :=
  grpRev l.reverse

/-! Concrete tables used by the scenario checks and witnesses. -/

/-- Order table of the monthly-aggregate scenario: three rows dated
2023-01-15, 2023-01-20, 2023-02-01 with total due 100, 50, 75. -/
def exOrders3 : List Order :=
  [⟨1, ⟨2023, 1, 15⟩, 100, "Shipped", 11⟩,
   ⟨2, ⟨2023, 1, 20⟩, 50, "Shipped", 12⟩,
   ⟨3, ⟨2023, 2, 1⟩, 75, "Cancelled", 13⟩]

/-- Product table of the top-price scenario: names A, B, C, D with list
prices 10, 999, 5, 500. -/
def exProducts4 : List Product :=
  [⟨1, "A", 10, "R"⟩, ⟨2, "B", 999, "R"⟩, ⟨3, "C", 5, "R"⟩, ⟨4, "D", 500, "R"⟩]

/-- A one-row product table. -/
def exProduct1 : List Product :=
  [⟨7, "Widget", 5, "R"⟩]

/-- A raw (unprepared) one-row order table whose date is still a string. -/
def exRawSales : List SalesRow :=
  [⟨1, .raw "2023-01-15", 100, "Shipped", 11, [("ShipMethodID", "5")]⟩]

/-- A raw one-row product table. -/
def exRawProducts : List ProductRow :=
  [⟨7, "Widget", 5, "R", [("Color", "Red")]⟩]

/-- An already-prepared one-row order table. -/
def exPreparedSales : List SalesRow :=
  [⟨1, .parsed ⟨2023, 1, 15⟩, 100, "Shipped", 11, []⟩]

/-- An already-prepared one-row product table. -/
def exPreparedProducts : List ProductRow :=
  [⟨7, "Widget", 5, "R", []⟩]

/-- The state of `exRawSales` after `prepare_data` returns: the date
column now holds the parsed date, every other column is untouched. -/
def exPostSales : List SalesRow :=
  [⟨1, .parsed ⟨2023, 1, 15⟩, 100, "Shipped", 11, [("ShipMethodID", "5")]⟩]

/-! Helper lemmas. -/

theorem sum_upsertMonthly (acc : List (String × ℚ × Nat)) (k : String) (v : ℚ) :
    ((upsertMonthly acc k v).map (fun g => g.2.1)).sum =
      ((acc.map (fun g => g.2.1)).sum) + v := by
  induction acc with
  | nil => simp [upsertMonthly]
  | cons g rest ih =>
    obtain ⟨k', s, c⟩ := g
    by_cases h : k' = k
    · simp [upsertMonthly, h]
      ring
    · simp [upsertMonthly, h, ih]
      ring

theorem sum_monthlyTally_aux (rows : List Order) (acc : List (String × ℚ × Nat)) :
    ((rows.foldl (fun a r => upsertMonthly a (ymKey r.orderDate) r.totalDue) acc).map
        (fun g => g.2.1)).sum =
      ((acc.map (fun g => g.2.1)).sum) + (rows.map Order.totalDue).sum := by
  induction rows generalizing acc with
  | nil => simp
  | cons r rest ih =>
    simp only [List.foldl_cons, List.map_cons, List.sum_cons]
    rw [ih, sum_upsertMonthly]
    ring

theorem count_upsertCount (acc : List (String × Nat)) (k : String) :
    ((upsertCount acc k).map Prod.snd).sum = ((acc.map Prod.snd).sum) + 1 := by
  induction acc with
  | nil => simp [upsertCount]
  | cons g rest ih =>
    obtain ⟨k', c⟩ := g
    by_cases h : k' = k
    · simp [upsertCount, h]
      ring
    · simp [upsertCount, h, ih]
      ring

theorem count_statusTally_aux (rows : List Order) (acc : List (String × Nat)) :
    ((rows.foldl (fun a r => upsertCount a r.status) acc).map Prod.snd).sum =
      ((acc.map Prod.snd).sum) + rows.length := by
  induction rows generalizing acc with
  | nil => simp
  | cons r rest ih =>
    simp only [List.foldl_cons, List.length_cons]
    rw [ih, count_upsertCount]
    ring

theorem ymKey_jan15 : ymKey ⟨2023, 1, 15⟩ = "2023-01" := by decide

theorem ymKey_jan20 : ymKey ⟨2023, 1, 20⟩ = "2023-01" := by decide

theorem ymKey_feb01 : ymKey ⟨2023, 2, 1⟩ = "2023-02" := by decide

/-! Claim theorems. -/

/-- Claim C1: for every prepared order table, the per-group total-due
values of the monthly aggregate (group by the `"YYYY-MM"` rendering of the
order date, summing total due) sum to exactly the total-due sum of the
whole table; and the three-row scenario dated 2023-01-15 / 2023-01-20 /
2023-02-01 with total due 100 / 50 / 75 yields exactly the groups
`("2023-01", 150, 2)` and `("2023-02", 75, 1)`. -/
theorem monthly_sales_sum_partition :
    (∀ rows : List Order,
      ((monthlySales rows).map (fun g => g.2.1)).sum = (rows.map Order.totalDue).sum) ∧
    monthlySales exOrders3 = [("2023-01", 150, 2), ("2023-02", 75, 1)] := by
  constructor
  · intro rows
    have hperm : List.Perm (monthlySales rows) (monthlyTally rows) :=
      List.perm_insertionSort keyLE (monthlyTally rows)
    have := (hperm.map (fun g => g.2.1)).sum_eq
    rw [this]
    have := sum_monthlyTally_aux rows []
    simpa [monthlyTally] using this
  · norm_num [monthlySales, monthlyTally, upsertMonthly, exOrders3, ymKey_jan15,
      ymKey_jan20, ymKey_feb01, keyLE, List.insertionSort, List.orderedInsert]
    decide

/-- Claim C5: for every order table, the counts of the status distribution
sum to exactly the row count; and the scenario with status column
Shipped / Shipped / Cancelled yields the distribution
`("Shipped", 2), ("Cancelled", 1)` whose counts sum to 3. -/
theorem status_dist_count_partition :
    (∀ rows : List Order, ((statusDist rows).map Prod.snd).sum = rows.length) ∧
    statusDist exOrders3 = [("Shipped", 2), ("Cancelled", 1)] := by
  constructor
  · intro rows
    have hperm : List.Perm (statusDist rows) (statusTally rows) :=
      List.perm_insertionSort countGE (statusTally rows)
    have := (hperm.map Prod.snd).sum_eq
    rw [this]
    have := count_statusTally_aux rows []
    simpa [statusTally] using this
  · norm_num [statusDist, statusTally, upsertCount, exOrders3, countGE,
      List.insertionSort, List.orderedInsert]

/-- Claim C6: the "total orders" insight scalar equals exactly the row
count of the prepared order table. -/
theorem total_orders_eq_rowcount (sales : List Order) (products : List Product)
    (ins : Insights) (h : generateInsights sales products = .ok ins) :
    ins.totalOrders = sales.length := by
  unfold generateInsights at h
  cases hidx : idxmax (products.map (·.listPrice)) with
  | error e => rw [hidx] at h; cases h
  | ok i =>
    rw [hidx] at h
    cases h
    rfl

/-- Witness for C6 at a concrete one-product, no-order input. -/
theorem total_orders_eq_rowcount_witness :
    ∃ ins, generateInsights [] exProduct1 = .ok ins ∧ ins.totalOrders = ([] : List Order).length := by
  refine ⟨⟨0, 0, none, some 5, "Widget"⟩, ?h, ?_⟩
  case h => norm_num [generateInsights, idxmax, meanQ, exProduct1, List.findIdx_cons]
  case _ => exact total_orders_eq_rowcount [] exProduct1 _ (by
    norm_num [generateInsights, idxmax, meanQ, exProduct1, List.findIdx_cons])

/-- Claim C4 (code behavior at the failing input): on an empty product
table, `generate_insights` raises — `Series.idxmax` on the empty list-price
column is an error, so no insights value is produced. -/
theorem insights_empty_products_raise (sales : List Order) :
    generateInsights sales [] = .error "attempt to get argmax of an empty sequence" := rfl

/-- Claim C10: with an empty prepared order table and a non-empty product
table, insight extraction succeeds on the order-derived metrics: total
sales is 0 (empty sum) and total orders is 0 (empty count). -/
theorem insights_empty_orders (products : List Product) (h : products ≠ []) :
    ∃ ins, generateInsights [] products = .ok ins ∧
      ins.totalSales = 0 ∧ ins.totalOrders = 0 := by
  cases products with
  | nil => exact absurd rfl h
  | cons p ps =>
    refine ⟨_, rfl, ?_, rfl⟩
    simp [generateInsights]

/-- Witness for C10 at the concrete one-product table. -/
theorem insights_empty_orders_witness :
    exProduct1 ≠ [] ∧
    ∃ ins, generateInsights [] exProduct1 = .ok ins ∧
      ins.totalSales = 0 ∧ ins.totalOrders = 0 :=
  ⟨by decide, insights_empty_orders exProduct1 (by decide)⟩

/-- Claim C2: the dashboard's top-N product selection (N = 10) returns
exactly `min 10 (row count)` rows, each a row of the input table; on the
index-carrying view the selection is sorted by descending list price with
list-price ties broken by smaller original row index, and each selected
pair really is the row of the input table at its carried index. -/
theorem top_products_spec (products : List Product) :
    (topProducts products).length = min 10 products.length ∧
    (∀ p ∈ topProducts products, p ∈ products) ∧
    List.Pairwise priceIdxLE (nlargestIdx 10 products) ∧
    topProducts products = (nlargestIdx 10 products).map Prod.snd ∧
    (∀ ip ∈ nlargestIdx 10 products, products[ip.1]? = some ip.2) := by
  have hperm : List.Perm (List.insertionSort priceIdxLE products.enum) products.enum :=
    List.perm_insertionSort priceIdxLE products.enum
  refine ⟨?_, ?_, ?_, rfl, ?_⟩
  · simp [topProducts, nlargest, nlargestIdx, List.length_take, hperm.length_eq,
      List.enum_length]
  · intro p hp
    simp only [topProducts, nlargest, List.mem_map] at hp
    obtain ⟨ip, hip, hsnd⟩ := hp
    have h1 : ip ∈ List.insertionSort priceIdxLE products.enum :=
      (List.take_sublist _ _).subset hip
    have h2 : ip ∈ products.enum := hperm.subset h1
    have h3 : products[ip.1]? = some ip.2 := by
      rw [← List.mem_enum_iff_getElem?]
      exact h2
    subst hsnd
    exact List.getElem?_mem h3
  · exact (List.sorted_insertionSort priceIdxLE products.enum).sublist
      (List.take_sublist _ _)
  · intro ip hip
    have h1 : ip ∈ List.insertionSort priceIdxLE products.enum :=
      (List.take_sublist _ _).subset hip
    have h2 : ip ∈ products.enum := hperm.subset h1
    rw [← List.mem_enum_iff_getElem?]
    exact h2

/-- Witness for C2: the membership conjunct discharged at the concrete
four-product table and its top row. -/
theorem top_products_spec_witness :
    (topProducts exProducts4).length = min 10 exProducts4.length ∧
    (⟨2, "B", 999, "R"⟩ : Product) ∈ topProducts exProducts4 ∧
    (⟨2, "B", 999, "R"⟩ : Product) ∈ exProducts4 := by
  have hmem : (⟨2, "B", 999, "R"⟩ : Product) ∈ topProducts exProducts4 := by
    norm_num [topProducts, nlargest, nlargestIdx, exProducts4, priceIdxLE,
      List.insertionSort, List.orderedInsert, List.enum, List.enumFrom]
  exact ⟨(top_products_spec exProducts4).1, hmem,
    (top_products_spec exProducts4).2.1 _ hmem⟩

theorem foldl_max_mem : ∀ (xs : List ℚ) (x : ℚ), xs.foldl max x ∈ x :: xs
  | [], x => by simp
  | y :: ys, x => by
    have h := foldl_max_mem ys (max x y)
    simp only [List.foldl_cons]
    rcases List.mem_cons.mp h with h | h
    · rw [h]
      rcases max_choice x y with hc | hc <;> rw [hc] <;> simp
    · simp [h]

theorem le_foldl_max : ∀ (xs : List ℚ) (x : ℚ), ∀ a ∈ x :: xs, a ≤ xs.foldl max x
  | [], x => by simp
  | y :: ys, x => by
    intro a ha
    have h := le_foldl_max ys (max x y)
    simp only [List.foldl_cons]
    rcases List.mem_cons.mp ha with h1 | h1
    · exact h1 ▸ (le_max_left x y).trans (h _ (by simp))
    · rcases List.mem_cons.mp h1 with h2 | h2
      · exact h2 ▸ (le_max_right x y).trans (h _ (by simp))
      · exact h _ (by simp [h2])

/-- The index returned by `idxmax` is in range, points at a maximum value,
and every strictly earlier entry is strictly below the maximum. -/
theorem idxmax_spec (l : List ℚ) (hl : l ≠ []) :
    ∃ i, idxmax l = .ok i ∧ ∃ h : i < l.length,
      (∀ a ∈ l, a ≤ l.get ⟨i, h⟩) ∧
      (∀ j (hj : j < i), l.get ⟨j, hj.trans h⟩ < l.get ⟨i, h⟩) := by
  cases l with
  | nil => exact absurd rfl hl
  | cons x xs =>
    set m := xs.foldl max x with hm
    set p : ℚ → Bool := fun y => decide (m ≤ y) with hp
    have hmem : m ∈ x :: xs := foldl_max_mem xs x
    have hub : ∀ a ∈ x :: xs, a ≤ m := le_foldl_max xs x
    have hex : ∃ y ∈ x :: xs, p y = true := ⟨m, hmem, by simp [hp]⟩
    have hlen : (x :: xs).findIdx p < (x :: xs).length :=
      List.findIdx_lt_length_of_exists hex
    refine ⟨(x :: xs).findIdx p, rfl, hlen, ?_, ?_⟩
    · intro a ha
      have hpi : p ((x :: xs).get ⟨(x :: xs).findIdx p, hlen⟩) = true := by
        have := @List.findIdx_getElem _ p (x :: xs) hlen
        simpa [List.get_eq_getElem] using this
      have : m ≤ (x :: xs).get ⟨(x :: xs).findIdx p, hlen⟩ := by
        simpa [hp] using hpi
      exact (hub a ha).trans this
    · intro j hj
      have hnp : ¬ p ((x :: xs).get ⟨j, hj.trans hlen⟩) = true := by
        have := @List.not_of_lt_findIdx _ p (x :: xs) j hj
        simpa [List.get_eq_getElem] using this
      have h1 : ¬ m ≤ (x :: xs).get ⟨j, hj.trans hlen⟩ := by
        simpa [hp] using hnp
      have hpi : p ((x :: xs).get ⟨(x :: xs).findIdx p, hlen⟩) = true := by
        have := @List.findIdx_getElem _ p (x :: xs) hlen
        simpa [List.get_eq_getElem] using this
      have h2 : m ≤ (x :: xs).get ⟨(x :: xs).findIdx p, hlen⟩ := by
        simpa [hp] using hpi
      exact lt_of_lt_of_le (lt_of_not_le h1) h2

/-- Claim C7: on a non-empty product table the most-expensive-product
insight is the display name of a product carrying the maximum list price,
the first such product in row order; and on prices 10 / 999 / 5 / 500 with
names A / B / C / D the insight is "B". -/
theorem most_expensive_spec :
    (∀ (sales : List Order) (products : List Product), products ≠ [] →
      ∃ ins, generateInsights sales products = .ok ins ∧
        ∃ i, ∃ h : i < products.length,
          ins.mostExpensive = (products.get ⟨i, h⟩).name ∧
          (∀ p ∈ products, p.listPrice ≤ (products.get ⟨i, h⟩).listPrice) ∧
          ∀ j (hj : j < i), (products.get ⟨j, hj.trans h⟩).listPrice <
            (products.get ⟨i, h⟩).listPrice) ∧
    (∃ ins, generateInsights [] exProducts4 = .ok ins ∧ ins.mostExpensive = "B") := by
  constructor
  · intro sales products hne
    have hl : products.map (·.listPrice) ≠ [] := by
      simpa using hne
    obtain ⟨i, hok, hlt, hmax, hfirst⟩ := idxmax_spec (products.map (·.listPrice)) hl
    have hilen : i < products.length := by simpa using hlt
    refine ⟨_, by rw [generateInsights, hok], i, hilen, ?_, ?_, ?_⟩
    · show (products.map (·.name)).getD i "" = _
      rw [List.getD, List.get?_eq_getElem?, List.getElem?_map,
        List.getElem?_eq_getElem hilen]
      simp [List.get_eq_getElem]
    · intro p hp
      have := hmax p.listPrice (List.mem_map_of_mem (·.listPrice) hp)
      simpa [List.get_eq_getElem] using this
    · intro j hj
      have := hfirst j (by simpa using hj)
      simpa [List.get_eq_getElem] using this
  · refine ⟨_, rfl, ?_⟩
    norm_num [generateInsights, idxmax, exProducts4, List.findIdx_cons, max_def,
      List.getD]

theorem parseTable_spec : ∀ (s t : List SalesRow), parseTable s = some t →
    t.length = s.length ∧
    ∀ i (hi : i < s.length) (hi' : i < t.length),
      ∃ d, toDatetimeVal ((s.get ⟨i, hi⟩).orderDate) = some d ∧
        t.get ⟨i, hi'⟩ = { s.get ⟨i, hi⟩ with orderDate := d }
  | [], t, h => by
    cases h
    exact ⟨rfl, fun i hi => absurd hi (by simp)⟩
  | r :: rs, t, h => by
    dsimp only [parseTable] at h
    cases hd : toDatetimeVal r.orderDate with
    | none => rw [hd] at h; cases h
    | some d =>
      rw [hd] at h
      cases ht : parseTable rs with
      | none => rw [ht] at h; cases h
      | some rest =>
        rw [ht] at h
        cases h
        obtain ⟨hlen, hrow⟩ := parseTable_spec rs rest ht
        refine ⟨by simp [hlen], ?_⟩
        intro i hi hi'
        cases i with
        | zero => exact ⟨d, hd, rfl⟩
        | succ n =>
          have hn : n < rs.length := by simpa using hi
          have hn' : n < rest.length := by simpa using hi'
          exact hrow n hn hn'

/-- Claim C3 (amended): `prepare_data` leaves the product argument
untouched and row count and all non-date columns of the order argument
intact, but it does write the parsed date column back into the caller's
order table (line 28 assigns through the passed-in dataframe). -/
theorem prepare_mutation_frame (s : List SalesRow) (p : List ProductRow)
    (out post : (List SalesRow × List ProductRow))
    (h : prepareData s p = some (out, post)) :
    post.2 = p ∧ post.1.length = s.length ∧
    ∀ i (hi : i < s.length) (hi' : i < post.1.length),
      ∃ d, toDatetimeVal ((s.get ⟨i, hi⟩).orderDate) = some d ∧
        post.1.get ⟨i, hi'⟩ = { s.get ⟨i, hi⟩ with orderDate := d } := by
  dsimp only [prepareData] at h
  cases ht : parseTable s with
  | none => rw [ht] at h; cases h
  | some parsed =>
    rw [ht] at h
    cases h
    obtain ⟨hlen, hrow⟩ := parseTable_spec s parsed ht
    exact ⟨rfl, hlen, hrow⟩

/-- Counterexample to C3 as stated: after the call the raw order table
passed in is *not* unchanged — its date cell has been parsed in place. -/
theorem prepare_mutates_input :
    prepareData exRawSales exRawProducts =
      some ((exPreparedSales, exPreparedProducts),
            ([⟨1, .parsed ⟨2023, 1, 15⟩, 100, "Shipped", 11, [("ShipMethodID", "5")]⟩],
             exRawProducts)) ∧
    ([⟨1, .parsed ⟨2023, 1, 15⟩, 100, "Shipped", 11, [("ShipMethodID", "5")]⟩] :
        List SalesRow) ≠ exRawSales := by
  constructor
  · rfl
  · decide

theorem parseTable_prepared : ∀ s : List SalesRow, isPreparedSales s →
    parseTable s = some s
  | [], _ => rfl
  | r :: rs, hs => by
    obtain ⟨⟨d, hd⟩, _⟩ := hs r (by simp)
    have ih := parseTable_prepared rs (fun r' hr' => hs r' (by simp [hr']))
    simp only [parseTable, hd, toDatetimeVal, ih, Option.map_some]
    cases r
    simp_all

theorem map_clear_extras_sales : ∀ s : List SalesRow, (∀ r ∈ s, r.extras = []) →
    s.map (fun r => { r with extras := [] }) = s
  | [], _ => rfl
  | r :: rs, hs => by
    have ih := map_clear_extras_sales rs (fun r' hr' => hs r' (by simp [hr']))
    have hex := hs r (by simp)
    simp only [List.map_cons, ih]
    congr 1
    cases r
    simp_all

theorem map_clear_extras_products : ∀ p : List ProductRow, (∀ r ∈ p, r.extras = []) →
    p.map (fun r => { r with extras := [] }) = p
  | [], _ => rfl
  | r :: rs, hp => by
    have ih := map_clear_extras_products rs (fun r' hr' => hp r' (by simp [hr']))
    have hex := hp r (by simp)
    simp only [List.map_cons, ih]
    congr 1
    cases r
    simp_all

/-- Claim C8: preparation is idempotent — on tables already in the
prepared schema (dates parsed, no extra columns) it returns its inputs
unchanged, and the post-call state of the arguments is also unchanged. -/
theorem prepare_idempotent (s : List SalesRow) (p : List ProductRow)
    (hs : isPreparedSales s) (hp : isPreparedProducts p) :
    prepareData s p = some ((s, p), (s, p)) := by
  have hparse := parseTable_prepared s hs
  have hmaps := map_clear_extras_sales s (fun r hr => (hs r hr).2)
  have hmapp := map_clear_extras_products p hp
  simp [prepareData, hparse, hmaps, hmapp]

theorem digitChar_isDigit : ∀ m, m < 10 → (Nat.digitChar m).isDigit = true := by decide

theorem natDigitsAux_ne_nil : ∀ fuel n, natDigitsAux fuel n ≠ []
  | 0, n => by simp [natDigitsAux]
  | fuel + 1, n => by
    by_cases h : n < 10 <;> simp [natDigitsAux, h]

theorem natDigitsAux_digits : ∀ fuel n, ∀ c ∈ natDigitsAux fuel n, c.isDigit = true
  | 0, n => by
    intro c hc
    simp only [natDigitsAux, List.mem_singleton] at hc
    exact hc ▸ digitChar_isDigit _ (Nat.mod_lt _ (by omega))
  | fuel + 1, n => by
    intro c hc
    by_cases h : n < 10
    · simp only [natDigitsAux, if_pos h, List.mem_singleton] at hc
      exact hc ▸ digitChar_isDigit _ h
    · simp only [natDigitsAux, if_neg h, List.mem_append, List.mem_singleton] at hc
      rcases hc with hc | hc
      · exact natDigitsAux_digits fuel (n / 10) c hc
      · exact hc ▸ digitChar_isDigit _ (Nat.mod_lt _ (by omega))

theorem natDigits_ne_nil (n : Nat) : natDigits n ≠ [] := natDigitsAux_ne_nil n n

theorem natDigits_digits (n : Nat) : ∀ c ∈ natDigits n, c.isDigit = true :=
  natDigitsAux_digits n n

theorem grpRev_insertCommasRev : ∀ l : List Char, l ≠ [] →
    (∀ c ∈ l, c.isDigit = true) → grpRev (insertCommasRev l) = true
  | [], h, _ => absurd rfl h
  | [a], _, hd => by simp [insertCommasRev, grpRev, hd a (by simp)]
  | [a, b], _, hd => by
    simp [insertCommasRev, grpRev, hd a (by simp), hd b (by simp)]
  | [a, b, c], _, hd => by
    simp [insertCommasRev, grpRev, hd a (by simp), hd b (by simp), hd c (by simp)]
  | a :: b :: c :: d :: rest, _, hd => by
    have ih := grpRev_insertCommasRev (d :: rest) (by simp)
      (fun x hx => hd x (by simp [List.mem_cons] at hx ⊢; tauto))
    simp [insertCommasRev, grpRev, hd a (by simp), hd b (by simp), hd c (by simp), ih]

theorem grpRev_withCommas_rev (ds : List Char) (hne : ds ≠ [])
    (hd : ∀ c ∈ ds, c.isDigit = true) :
    grpRev (withCommas ds).reverse = true := by
  unfold withCommas
  rw [List.reverse_reverse]
  exact grpRev_insertCommasRev ds.reverse (by simpa using hne) (by simpa using hd)

theorem isCount_formatInt (n : Nat) : isCountChars (formatInt n).data = true := by
  show grpRev (withCommas (natDigits n)).reverse = true
  exact grpRev_withCommas_rev _ (natDigits_ne_nil n) (natDigits_digits n)

theorem isMoney_formatMoney (q : ℚ) (h : 0 ≤ q) :
    isMoneyChars (formatMoney q).data = true := by
  have hneg : ¬ q < 0 := not_lt.mpr h
  have hdata : (formatMoney q).data =
      withCommas (natDigits (roundCents |q| / 100)) ++
        ['.', Nat.digitChar (roundCents |q| / 10 % 10), Nat.digitChar (roundCents |q| % 10)] := by
    simp [formatMoney, hneg, String.data_append]
  rw [isMoneyChars, hdata, List.reverse_append]
  have hrev : (['.', Nat.digitChar (roundCents |q| / 10 % 10),
      Nat.digitChar (roundCents |q| % 10)] : List Char).reverse =
      [Nat.digitChar (roundCents |q| % 10), Nat.digitChar (roundCents |q| / 10 % 10), '.'] := rfl
  rw [hrev]
  show ((Nat.digitChar (roundCents |q| / 10 % 10)).isDigit &&
      (Nat.digitChar (roundCents |q| % 10)).isDigit && ('.' == '.') &&
      grpRev ((withCommas (natDigits (roundCents |q| / 100))).reverse)) = true
  rw [grpRev_withCommas_rev _ (natDigits_ne_nil _) (natDigits_digits _),
    digitChar_isDigit _ (Nat.mod_lt _ (by omega)),
    digitChar_isDigit _ (Nat.mod_lt _ (by omega))]
  rfl

/-- Claim C9 (amended): for prepared tables with a non-empty product
table and a *non-empty order table* (and the data model's non-negative
currency columns), the insights file is the title line, a blank line, and
the five labeled metric lines in fixed order, each currency value carrying
comma thousands separators and exactly two decimal digits and the order
count comma-separated with no decimals.  (With an empty order table the
average-order-value slot renders as "nan" — see the counterexample.) -/
theorem insights_text_format (sales : List Order) (products : List Product)
    (ins : Insights) (hso : sales ≠ [])
    (hnn : ∀ r ∈ sales, 0 ≤ r.totalDue) (hpp : ∀ p ∈ products, 0 ≤ p.listPrice)
    (h : generateInsights sales products = .ok ins) :
    ∃ m1 c m2 m3, insightsText ins =
      "Key Business Insights:\n\n" ++
      "Total Sales: $" ++ m1 ++ "\n" ++
      "Total Orders: " ++ c ++ "\n" ++
      "Average Order Value: $" ++ m2 ++ "\n" ++
      "Average Product Price: $" ++ m3 ++ "\n" ++
      "Most Expensive Product: " ++ ins.mostExpensive ++ "\n" ∧
      isMoneyChars m1.data = true ∧ isCountChars c.data = true ∧
      isMoneyChars m2.data = true ∧ isMoneyChars m3.data = true := by
  unfold generateInsights at h
  cases hidx : idxmax (products.map (·.listPrice)) with
  | error e => rw [hidx] at h; cases h
  | ok i =>
    rw [hidx] at h
    cases h
    have hpne : products ≠ [] := by
      intro hnil
      subst hnil
      simp [idxmax] at hidx
    have hsum_nn : 0 ≤ (sales.map (·.totalDue)).sum :=
      List.sum_nonneg (by
        intro a ha
        obtain ⟨r, hr, hra⟩ := List.mem_map.mp ha
        exact hra ▸ hnn r hr)
    have hpsum_nn : 0 ≤ (products.map (·.listPrice)).sum :=
      List.sum_nonneg (by
        intro a ha
        obtain ⟨r, hr, hra⟩ := List.mem_map.mp ha
        exact hra ▸ hpp r hr)
    have havg_nn : 0 ≤ (sales.map (·.totalDue)).sum / ((sales.map (·.totalDue)).length : ℚ) :=
      div_nonneg hsum_nn (by positivity)
    have hpavg_nn : 0 ≤ (products.map (·.listPrice)).sum / ((products.map (·.listPrice)).length : ℚ) :=
      div_nonneg hpsum_nn (by positivity)
    have hmean_s : meanQ (sales.map (·.totalDue)) =
        some ((sales.map (·.totalDue)).sum / ((sales.map (·.totalDue)).length : ℚ)) := by
      cases sales with
      | nil => exact absurd rfl hso
      | cons a l => rfl
    have hmean_p : meanQ (products.map (·.listPrice)) =
        some ((products.map (·.listPrice)).sum / ((products.map (·.listPrice)).length : ℚ)) := by
      cases products with
      | nil => exact absurd rfl hpne
      | cons a l => rfl
    refine ⟨formatMoney ((sales.map (·.totalDue)).sum), formatInt sales.length,
      formatMoney ((sales.map (·.totalDue)).sum / ((sales.map (·.totalDue)).length : ℚ)),
      formatMoney ((products.map (·.listPrice)).sum / ((products.map (·.listPrice)).length : ℚ)),
      ?_, ?_, ?_, ?_, ?_⟩
    · simp [insightsText, hmean_s, hmean_p, formatMean]
    · exact isMoney_formatMoney _ hsum_nn
    · exact isCount_formatInt _
    · exact isMoney_formatMoney _ havg_nn
    · exact isMoney_formatMoney _ hpavg_nn

theorem formatMoney_zero : formatMoney 0 = "0.00" := by
  have habs : |(0 : ℚ)| = 0 := by norm_num
  have h0 : roundCents 0 = 0 := by norm_num [roundCents]
  have hlt : ¬ (0 : ℚ) < 0 := by norm_num
  simp only [formatMoney, habs, h0, if_neg hlt]
  decide

theorem formatMoney_five : formatMoney 5 = "5.00" := by
  have habs : |(5 : ℚ)| = 5 := by norm_num
  have h0 : roundCents 5 = 500 := by
    norm_num [roundCents]
    decide
  have hlt : ¬ (5 : ℚ) < 0 := by norm_num
  simp only [formatMoney, habs, h0, if_neg hlt]
  decide

/-- Counterexample to C9 as stated: with an empty order table (product
table non-empty) the file's Average Order Value currency slot is the
pandas NaN rendering "nan", which has no two-decimal format. -/
theorem insights_text_nan :
    generateInsights [] exProduct1 = .ok ⟨0, 0, none, some 5, "Widget"⟩ ∧
    insightsText ⟨0, 0, none, some 5, "Widget"⟩ =
      "Key Business Insights:\n\nTotal Sales: $0.00\nTotal Orders: 0\n" ++
      "Average Order Value: $nan\nAverage Product Price: $5.00\n" ++
      "Most Expensive Product: Widget\n" ∧
    isMoneyChars "nan".data = false := by
  refine ⟨?_, ?_, by decide⟩
  · norm_num [generateInsights, idxmax, meanQ, exProduct1, List.findIdx_cons]
  · rw [insightsText]
    show "Key Business Insights:\n\n" ++ "Total Sales: $" ++ formatMoney 0 ++ "\n" ++
      "Total Orders: " ++ formatInt 0 ++ "\n" ++
      "Average Order Value: $" ++ formatMean none ++ "\n" ++
      "Average Product Price: $" ++ formatMean (some 5) ++ "\n" ++
      "Most Expensive Product: " ++ "Widget" ++ "\n" = _
    rw [formatMoney_zero]
    show _ ++ _ ++ _ ++ _ ++ _ ++ formatInt 0 ++ _ ++ _ ++ "nan" ++ _ ++ _ ++
      formatMoney 5 ++ _ ++ _ ++ "Widget" ++ "\n" = _
    rw [formatMoney_five]
    decide


/-- Witness for C7: the hypothesis discharged at the four-product table. -/
theorem most_expensive_spec_witness :
    exProducts4 ≠ [] ∧
    ∃ ins, generateInsights [] exProducts4 = .ok ins ∧
      ∃ i, ∃ h : i < exProducts4.length,
        ins.mostExpensive = (exProducts4.get ⟨i, h⟩).name ∧
        (∀ p ∈ exProducts4, p.listPrice ≤ (exProducts4.get ⟨i, h⟩).listPrice) ∧
        ∀ j (hj : j < i), (exProducts4.get ⟨j, hj.trans h⟩).listPrice <
          (exProducts4.get ⟨i, h⟩).listPrice :=
  ⟨by decide, most_expensive_spec.1 [] exProducts4 (by decide)⟩

/-- Witness for C3 (amended) at the concrete raw tables. -/
theorem prepare_mutation_frame_witness :
    prepareData exRawSales exRawProducts =
      some ((exPreparedSales, exPreparedProducts), (exPostSales, exRawProducts)) ∧
    ((exPostSales, exRawProducts).2 = exRawProducts ∧
     (exPostSales, exRawProducts).1.length = exRawSales.length ∧
     ∀ i (hi : i < exRawSales.length) (hi' : i < (exPostSales, exRawProducts).1.length),
       ∃ d, toDatetimeVal ((exRawSales.get ⟨i, hi⟩).orderDate) = some d ∧
         (exPostSales, exRawProducts).1.get ⟨i, hi'⟩ =
           { exRawSales.get ⟨i, hi⟩ with orderDate := d }) := by
  have h : prepareData exRawSales exRawProducts =
      some ((exPreparedSales, exPreparedProducts), (exPostSales, exRawProducts)) := rfl
  exact ⟨h, prepare_mutation_frame _ _ _ _ h⟩

/-- Witness for C8 at concrete already-prepared tables. -/
theorem prepare_idempotent_witness :
    isPreparedSales exPreparedSales ∧ isPreparedProducts exPreparedProducts ∧
    prepareData exPreparedSales exPreparedProducts =
      some ((exPreparedSales, exPreparedProducts),
            (exPreparedSales, exPreparedProducts)) := by
  have hs : isPreparedSales exPreparedSales := by
    intro r hr
    simp only [exPreparedSales, List.mem_singleton] at hr
    subst hr
    exact ⟨⟨⟨2023, 1, 15⟩, rfl⟩, rfl⟩
  have hp : isPreparedProducts exPreparedProducts := by
    intro r hr
    simp only [exPreparedProducts, List.mem_singleton] at hr
    subst hr
    rfl
  exact ⟨hs, hp, prepare_idempotent _ _ hs hp⟩

/-- Witness for C9 (amended) at a concrete three-order, one-product
input. -/
theorem insights_text_format_witness :
    exOrders3 ≠ [] ∧ (∀ r ∈ exOrders3, 0 ≤ r.totalDue) ∧
    (∀ p ∈ exProduct1, 0 ≤ p.listPrice) ∧
    ∃ m1 c m2 m3,
      insightsText ⟨225, 3, some 75, some 5, "Widget"⟩ =
        "Key Business Insights:\n\n" ++
        "Total Sales: $" ++ m1 ++ "\n" ++
        "Total Orders: " ++ c ++ "\n" ++
        "Average Order Value: $" ++ m2 ++ "\n" ++
        "Average Product Price: $" ++ m3 ++ "\n" ++
        "Most Expensive Product: " ++
          (Insights.mostExpensive ⟨225, 3, some 75, some 5, "Widget"⟩) ++ "\n" ∧
      isMoneyChars m1.data = true ∧ isCountChars c.data = true ∧
      isMoneyChars m2.data = true ∧ isMoneyChars m3.data = true := by
  have h : generateInsights exOrders3 exProduct1 =
      .ok ⟨225, 3, some 75, some 5, "Widget"⟩ := by
    norm_num [generateInsights, idxmax, meanQ, exOrders3, exProduct1,
      List.findIdx_cons]
  exact ⟨by decide, by decide, by decide,
    insights_text_format exOrders3 exProduct1 _ (by decide) (by decide) (by decide) h⟩


end SalesDash
